import Mathlib

/-!
Verification of the hydrogen-project scraping core

Shallow embedding, in Lean 4, of the core of the `scraping` repository:

* `ai_project_extractor.py` — the refinement scheduler (`AIProjectExtractor`),
  its `RateLimiter`, its model router (`_next_model` / bad-model marking),
  its merge logic (`write_result` with `normalize_number` / `normalize_value`)
  and the claim-state lifecycle of `run` (the `is_ai_improved` flag:
  `0`/`NULL` = pending, `9` = claimed, `1` = done).
* `classic_project_extractor.py` — the rule-based classifier/extractor
  (`_compute_classic_score`, `_extract_project_name`, `_extract_capacity_mw`,
  `_extract_investment_cny`, `_extract_stage`, `_determine_quality`,
  `_determine_source_type`, `_generate_summary`, the content gate, and the
  record-writing path of `_process_article_row`).

Machine floats of the source are modelled as exact rationals (`ℚ`); SQLite
tables as Lean lists of rows; Python regular expressions as explicit,
executable scanners that are proved/argued in the comments to coincide with
CPython's leftmost-match semantics on the specific patterns of the source
(for each pattern used here, backtracking cannot produce a different match,
because the character sets of adjacent sub-patterns are disjoint).
Network and file I/O (the OpenAI call, HTML fetching, logging) is not
executed; where a function's result depends on the remote response, that
response is an explicit input of the model.
-/

namespace Scraping

/-! ## Python value primitives -/

/-- Does `hay` start with `needle`? -/
def chStartsWith : List Char → List Char → Bool
  | [], _ => true
  | _ :: _, [] => false
  | n :: ns, h :: hs => n == h && chStartsWith ns hs

/-- Does `hay` contain `needle` as a contiguous run? -/
def chContains (needle : List Char) : List Char → Bool
  | [] => chStartsWith needle []
  | c :: rest => chStartsWith needle (c :: rest) || chContains needle rest

/-- Python's `needle in hay` on strings (substring test). -/
def pyIn (needle hay : String) : Bool :=
  chContains needle.toList hay.toList

/-- Python's `str.lower()` (ASCII case folding; the source only tests ASCII
substrings such as `"gw"`, `"rate"`, `"does not exist"`). -/
def pyLower (s : String) : String :=
  String.mk (s.toList.map Char.toLower)

/-- Python's `s[:n]` character slice. -/
def takeChars (n : Nat) (s : String) : String :=
  String.mk (s.toList.take n)

/-- Python's `str.strip()` (ASCII whitespace; the texts at issue use no
exotic space characters). -/
def pyStrip (s : String) : String :=
  String.mk (((s.toList.dropWhile Char.isWhitespace).reverse.dropWhile
    Char.isWhitespace).reverse)

/-- Python's `s.replace(",", "")`. -/
def removeCommas (s : String) : String :=
  String.mk (s.toList.filter (fun c => c ≠ ','))

/-- A scalar JSON/SQL value as handled by the scheduler: a string or a
number.  Lists/dicts (which `normalize_value` JSON-stringifies) and booleans
are not needed by any claim and are not modelled. -/
inductive PyVal where
  | s (v : String)
  | n (v : ℚ)
deriving DecidableEq, Repr

/-- Python truthiness of a scalar (`""` and `0` are falsy). -/
def pyTruthy : PyVal → Bool
  | .s v => v ≠ ""
  | .n v => v ≠ 0

/-- Truthiness of a nullable value (`None` is falsy). -/
def pyTruthyOpt : Option PyVal → Bool
  | none => false
  | some v => pyTruthy v

/-- Truthiness of a nullable string. -/
def pyTruthyStr : Option String → Bool
  | none => false
  | some v => v ≠ ""

/-- The string content of a nullable value, with `None` read as `""`
(the source's `existing or ""`). -/
def pyStrOrEmpty : Option PyVal → String
  | some (.s v) => v
  | _ => ""

/-! ## A small executable matcher for the source's regular expressions

Every numeric pattern of the source has the shape
`<number> <tail>` where the tail is a sequence of literal unit strings,
optional literals and `\s*` gaps.  `re.search` semantics on such patterns:
positions are tried left to right; at a position the number capture is
greedy; backtracking into the number can never help, because no tail token
can start with a digit, a comma or a dot.  The scanners below implement
exactly that. -/

/-- One tail token of a numeric pattern. -/
inductive Tok where
  | ws                      -- the gap `\s*`
  | lit (s : String)        -- a literal
  | litCI (s : String)      -- a literal under `re.IGNORECASE`
  | opt (s : String)        -- an optional literal `s?`
  | alt (ss : List String)  -- an alternation `(a|b|...)`

/-- Drop a literal from the head of the character stream. -/
def dropLit : List Char → List Char → Option (List Char)
  | [], cs => some cs
  | _ :: _, [] => none
  | p :: ps, c :: cs => if c == p then dropLit ps cs else none

/-- Drop a literal case-insensitively. -/
def dropLitCI : List Char → List Char → Option (List Char)
  | [], cs => some cs
  | _ :: _, [] => none
  | p :: ps, c :: cs => if c.toLower == p.toLower then dropLitCI ps cs else none

/-- Try the alternatives of an alternation in order (regex order),
returning the rest after the first alternative that matches. -/
def firstAltMatch (ss : List String) (cs : List Char) : Option (List Char) :=
  ss.findSome? (fun s => dropLit s.toList cs)

/-- Match a token sequence at the head of the stream, returning the rest.
`opt` is matched greedily: when taking the optional literal later fails,
skipping it would fail as well, because the following token is a `\s*` gap
plus a literal that never begins with the optional literal's first
character (true for every pattern of the source).  Likewise `alt` commits
to its first matching alternative: in every pattern of the source the
alternation is the final token, so no continuation can fail behind it and
the commitment agrees with the regex backtracking semantics. -/
def matchToks : List Tok → List Char → Option (List Char)
  | [], cs => some cs
  | .ws :: ts, cs => matchToks ts (cs.dropWhile Char.isWhitespace)
  | .lit s :: ts, cs => (dropLit s.toList cs).bind (matchToks ts)
  | .litCI s :: ts, cs => (dropLitCI s.toList cs).bind (matchToks ts)
  | .opt s :: ts, cs =>
    (match dropLit s.toList cs with
     | some cs' => matchToks ts cs'
     | none => matchToks ts cs)
  | .alt ss :: ts, cs => (firstAltMatch ss cs).bind (matchToks ts)

/-- The number capture `\d[\d,]*\.?\d*` (greedy, as in
`_extract_capacity_mw` / `_extract_investment_cny`).  Returns the captured
characters and the rest of the stream. -/
def numTokA : List Char → Option (List Char × List Char)
  | [] => none
  | c :: cs =>
    if c.isDigit then
      let a := cs.takeWhile (fun d => d.isDigit || d == ',')
      match cs.dropWhile (fun d => d.isDigit || d == ',') with
      | '.' :: r2 =>
        some (c :: a ++ '.' :: r2.takeWhile Char.isDigit, r2.dropWhile Char.isDigit)
      | r1 => some (c :: a, r1)
    else none

/-- The number capture `\d+(\.\d+)?` (score patterns and the fallback
`([0-9]+(?:\.[0-9]+)?)` of `normalize_number`); the fractional part needs
at least one digit. -/
def numTokB : List Char → Option (List Char × List Char)
  | [] => none
  | c :: cs =>
    if c.isDigit then
      let a := cs.takeWhile Char.isDigit
      match cs.dropWhile Char.isDigit with
      | '.' :: r2 =>
        let b := r2.takeWhile Char.isDigit
        if b.isEmpty then some (c :: a, '.' :: r2)
        else some (c :: a ++ '.' :: b, r2.dropWhile Char.isDigit)
      | r1 => some (c :: a, r1)
    else none

/-- The source's `re.search` for `<number><tail>`: scan positions left to right and
return the first captured number. -/
def searchNumTail (numTok : List Char → Option (List Char × List Char))
    (tail : List Tok) : List Char → Option (List Char)
  | [] => none
  | c :: rest =>
    match numTok (c :: rest) with
    | some (cap, r) =>
      if (matchToks tail r).isSome then some cap else searchNumTail numTok tail rest
    | none => searchNumTail numTok tail rest

/-- Digits to a natural number. -/
def digitsToNat (ds : List Char) : Nat :=
  ds.foldl (fun a c => a * 10 + (c.toNat - '0'.toNat)) 0

/-- An exact fraction (integer numerator over natural denominator), the
value space of the numeric embedding: decimal literals and IEEE-754
binary64 values (which are dyadic rationals) are represented exactly, the
result is converted to `ℚ` at the boundary, and the operations stay in
integer arithmetic so that every extractor is evaluable by `decide`. -/
structure Frac where
  num : Int
  den : Nat
deriving DecidableEq, Repr

/-- The rational value of a fraction. -/
def Frac.toRat (f : Frac) : ℚ :=
  mkRat f.num f.den

/-- Multiply a fraction by a natural scale factor. -/
def Frac.mulNat (f : Frac) (k : Nat) : Frac :=
  ⟨f.num * k, f.den⟩

/-- Divide a fraction by a natural scale factor. -/
def Frac.divNat (f : Frac) (k : Nat) : Frac :=
  ⟨f.num, f.den * k⟩

/-- Full-string parse of a decimal numeral, modelling both
`Decimal(str(x))` and `float(x)` on the numerals the source feeds them:
optional sign, digits, optional fraction, optional exponent; at least one
mantissa digit; the whole string must be consumed.  The value
`±(ip.fp) × 10^(±e)` is built as an exact fraction. -/
def parseDecimal (s : String) : Option Frac :=
  let cs := s.toList
  let sgn : Int × List Char :=
    match cs with
    | '-' :: r => (-1, r)
    | '+' :: r => (1, r)
    | r => (1, r)
  let ip := sgn.2.takeWhile Char.isDigit
  let r1 := sgn.2.dropWhile Char.isDigit
  let fp : List Char × List Char :=
    match r1 with
    | '.' :: r => (r.takeWhile Char.isDigit, r.dropWhile Char.isDigit)
    | _ => ([], r1)
  if ip.isEmpty && fp.1.isEmpty then none
  else
    let mant : Frac :=
      ⟨sgn.1 * (digitsToNat ip * 10 ^ fp.1.length + digitsToNat fp.1 : Nat), 10 ^ fp.1.length⟩
    match fp.2 with
    | [] => some mant
    | e :: r =>
      if e == 'e' || e == 'E' then
        let esgn : Bool × List Char :=
          match r with
          | '-' :: rr => (true, rr)
          | '+' :: rr => (false, rr)
          | rr => (false, rr)
        let ed := esgn.2.takeWhile Char.isDigit
        let rest := esgn.2.dropWhile Char.isDigit
        if ed.isEmpty || !rest.isEmpty then none
        else if esgn.1 then some (mant.divNat (10 ^ digitsToNat ed))
        else some (mant.mulNat (10 ^ digitsToNat ed))
      else none

/-- The source's `float(num_str.replace(",", ""))` on a captured number. -/
def capturedFrac (cap : List Char) : Option Frac :=
  parseDecimal (String.mk (cap.filter (fun c => c ≠ ',')))

/-- The source's `.{0,10}` followed by one of the alternatives (`.` does not match a
newline under CPython's default flags). -/
def projNounAfterDots (nouns : List String) : Nat → List Char → Bool
  | n, cs =>
    nouns.any (fun a => (dropLit a.toList cs).isSome) ||
      match n, cs with
      | 0, _ => false
      | _, [] => false
      | n + 1, c :: r => c ≠ '\n' && projNounAfterDots nouns n r

/-- The source's `re.search` for `(unit₁|…)(.{0,10})(noun₁|…)`. -/
def searchLocProj (units nouns : List String) : List Char → Bool
  | [] => false
  | c :: rest =>
    units.any (fun u =>
      match dropLit u.toList (c :: rest) with
      | some r => projNounAfterDots nouns 10 r
      | none => false) ||
    searchLocProj units nouns rest

/-! ## Classic engine: keyword tables (`ClassicProjectExtractor` class constants) -/

/-- The source's `ClassicProjectExtractor.PROJECT_WORDS`. -/
def PROJECT_WORDS : List String :=
  ["项目", "工程", "基地", "示范", "园区", "走廊", "产业园", "示范区", "一体化"]

/-- The source's `ClassicProjectExtractor.STAGE_KEYWORDS` (a `dict`; CPython preserves
insertion order, so the table order below is the iteration order). -/
def STAGE_KEYWORDS : List (String × List String) :=
  [("备案/获批/核准",
    ["备案", "核准", "获批", "批复", "备案通过", "准予备案", "获备案", "项目备案", "审批通过"]),
   ("开工",
    ["开工", "动工", "开建", "启动建设", "开工仪式", "开工建设", "开工活动", "项目启动"]),
   ("在建", ["在建", "施工中", "施工", "安装高峰期"]),
   ("投运/投产",
    ["投运", "投产", "并网", "竣工", "投用", "投入使用", "投入运营", "投入运行", "试运行",
     "竣工投产", "竣工投用"]),
   ("招标",
    ["招标", "采购", "比选", "招标公告", "EPC招标", "总承包招标", "公开招标", "采购项目"]),
   ("中标", ["中标", "中选", "中标结果", "中标公示", "中标候选人", "中标结果公示"]),
   ("签约", ["签约", "签署协议", "签署合作协议", "合作协议", "签约仪式", "合作签约"]),
   ("取消", ["取消", "终止", "废标"])]

/-- The source's `_has_any`: `any(w in text for w in words)`. -/
def hasAny (text : String) (words : List String) : Bool :=
  words.any (fun w => pyIn w text)

/-! ## Classic engine: scoring (`_compute_classic_score`) -/

/-- The five boolean signals of `_compute_classic_score`. -/
structure ClassicFlags where
  project_word : Bool
  stage_word : Bool
  capacity : Bool
  investment : Bool
  location_project : Bool
deriving DecidableEq, Repr

/-- Signal 3: `\d+(\.\d+)?\s*万?\s*千瓦` or `\d+(\.\d+)?\s*MW` (ignorecase). -/
def capacitySignal (combined : List Char) : Bool :=
  (searchNumTail numTokB [.ws, .opt "万", .ws, .lit "千瓦"] combined).isSome ||
    (searchNumTail numTokB [.ws, .litCI "MW"] combined).isSome

/-- Signal 4: `\d+(\.\d+)?\s*亿元` or `\d+(\.\d+)?\s*万\s*元`. -/
def investmentSignal (combined : List Char) : Bool :=
  (searchNumTail numTokB [.ws, .lit "亿元"] combined).isSome ||
    (searchNumTail numTokB [.ws, .lit "万", .ws, .lit "元"] combined).isSome

/-- Signal 5: `(省|市|自治区|州|盟|旗|县|区).{0,10}(项目|工程|基地|示范|园区)`. -/
def locationProjectSignal (combined : List Char) : Bool :=
  searchLocProj ["省", "市", "自治区", "州", "盟", "旗", "县", "区"]
    ["项目", "工程", "基地", "示范", "园区"] combined

/-- The source's `_compute_classic_score(title, head)`: the score and the five flags.
`combined = f"{title}\n{head}"`. -/
def computeClassicScore (title head : String) : Nat × ClassicFlags :=
  let combined := title ++ "\n" ++ head
  let cs := combined.toList
  let flags : ClassicFlags :=
    { project_word := hasAny combined PROJECT_WORDS
      stage_word := STAGE_KEYWORDS.any (fun p => hasAny combined p.2)
      capacity := capacitySignal cs
      investment := investmentSignal cs
      location_project := locationProjectSignal cs }
  (flags.project_word.toNat + flags.stage_word.toNat + flags.capacity.toNat +
     flags.investment.toNat + flags.location_project.toNat, flags)

/-- The source's `_build_text_head(title, main_text)` with the default `max_chars=600`. -/
def buildTextHead (title mainText : String) : String :=
  let head := pyStrip title
  (if head ≠ "" then head ++ "\n" else head) ++ takeChars 600 mainText

/-! ## Classic engine: field extraction -/

/-- The source's `_extract_stage`: first stage whose keyword list hits, in table order. -/
def extractStage (text : String) : Option String :=
  STAGE_KEYWORDS.findSome? (fun p => if hasAny text p.2 then some p.1 else none)

/-- One step of the `_extract_capacity_mw` / `_extract_investment_cny`
cascade before float conversion: leftmost match of `(\d[\d,]*\.?\d*)<tail>`,
the captured group read as an exact decimal after `.replace(",", "")`. -/
def capNum (tail : List Tok) (cs : List Char) : Option Frac :=
  (searchNumTail numTokA tail cs).bind capturedFrac

/-! ### Binary64 arithmetic

The unit cascades compute in CPython floats, i.e. IEEE-754 binary64.
Every binary64 value is an exact dyadic rational, so the float pipeline is
modelled exactly: `roundF64` rounds a fraction to a 53-bit significand
(round to nearest, ties to even), which is precisely what `float(str)`
does to a decimal literal and what each float multiplication or division
does to its exact result.  The cascade's values lie far inside the normal
range, so binary64 overflow and subnormals cannot arise and are not
modelled. -/

/-- Scale the positive fraction `a / b` by powers of two into
`[2^52, 2^53)`, accumulating the exponent: the result `(a', b', e)`
satisfies `a / b = (a' / b') * 2 ^ e` with `2^52 * b' ≤ a' < 2^53 * b'`.
The fuel bounds the shift count; 2200 covers the whole binary64 range. -/
def f64Scale : Nat → Nat → Nat → Int → Nat × Nat × Int
  | 0, a, b, e => (a, b, e)
  | fuel + 1, a, b, e =>
    if a < 2 ^ 52 * b then f64Scale fuel (2 * a) b (e - 1)
    else if 2 ^ 53 * b ≤ a then f64Scale fuel a (2 * b) (e + 1)
    else (a, b, e)

/-- Round the fraction `a / b`, already scaled into `[2^52, 2^53)`, to an
integer significand: round to nearest, ties to even. -/
def f64Significand (a b : Nat) : Nat :=
  let n := a / b
  let r := a % b
  if 2 * r < b then n
  else if b < 2 * r then n + 1
  else if n % 2 = 0 then n else n + 1

/-- Round an exact fraction to the nearest IEEE-754 binary64 value (ties
to even), returned as an exact dyadic fraction. -/
def roundF64 (f : Frac) : Frac :=
  if f.num = 0 then ⟨0, 1⟩
  else
    let s := f64Scale 2200 f.num.natAbs f.den 0
    let n := f64Significand s.1 s.2.1
    let mag : Frac :=
      if 0 ≤ s.2.2 then ⟨(n : Int) * 2 ^ s.2.2.toNat, 1⟩
      else ⟨(n : Int), 2 ^ (-s.2.2).toNat⟩
    if f.num < 0 then ⟨-mag.num, mag.den⟩ else mag

/-- Binary64 multiplication by a natural constant that is exactly
representable (`10.0`, `1000.0`, `10_000.0`, `100_000_000.0` all are):
IEEE-754 multiplication returns the exact product, rounded once. -/
def f64MulNat (f : Frac) (k : Nat) : Frac :=
  roundF64 (f.mulNat k)

/-- Binary64 division by an exactly representable natural constant
(`1_000.0`, `1_000_000.0`): the exact quotient, rounded once. -/
def f64DivNat (f : Frac) (k : Nat) : Frac :=
  roundF64 (f.divNat k)

/-- The source's `_parse_number` on a captured group:
`float(num_str.replace(",", ""))`, CPython's `float` rounding the decimal
literal to the nearest binary64. -/
def capNumF64 (tail : List Tok) (cs : List Char) : Option Frac :=
  (capNum tail cs).map roundF64

/-- The source's `_extract_capacity_mw`: ordered first-match-wins unit
cascade into MW, computed in binary64 arithmetic as the source does. -/
def extractCapacityMw (text : String) : Option ℚ :=
  let cs := text.toList
  ((capNumF64 [.ws, .lit "万", .ws, .lit "千瓦"] cs).map (fun v => (f64MulNat v 10).toRat)).orElse (fun _ =>
  ((capNumF64 [.ws, .litCI "GW"] cs).map (fun v => (f64MulNat v 1000).toRat)).orElse (fun _ =>
  ((capNumF64 [.ws, .litCI "MW"] cs).map (fun v => v.toRat)).orElse (fun _ =>
  ((capNumF64 [.ws, .alt ["千瓦", "kW", "KW"]] cs).map (fun v => (f64DivNat v 1000).toRat)).orElse (fun _ =>
  ((capNumF64 [.ws, .lit "瓦"] cs).map (fun v => (f64DivNat v 1000000).toRat))))))

/-- The source's `_extract_investment_cny`: `亿(元?) → ×1e8`, `万元 → ×1e4`,
`元 → ×1`, computed in binary64 arithmetic as the source does. -/
def extractInvestmentCny (text : String) : Option ℚ :=
  let cs := text.toList
  ((capNumF64 [.ws, .lit "亿", .ws, .opt "元"] cs).map (fun v => (f64MulNat v 100000000).toRat)).orElse (fun _ =>
  ((capNumF64 [.ws, .lit "万", .ws, .lit "元"] cs).map (fun v => (f64MulNat v 10000).toRat)).orElse (fun _ =>
  ((capNumF64 [.ws, .lit "元"] cs).map (fun v => v.toRat))))

/-- The character class `[^\s，。；：:！!？?]` of `_extract_project_name`. -/
def nameClassChar (c : Char) : Bool :=
  !(c.isWhitespace || c ∈ ['，', '。', '；', '：', ':', '！', '!', '？', '?'])

/-- The project-noun suffixes of the name pattern, in alternation order. -/
def NAME_SUFFIXES : List String := ["项目", "工程", "基地", "示范", "园区"]

/-- Is `s` a literal head of `cs`? -/
def isLitAt (s : String) (cs : List Char) : Bool :=
  (dropLit s.toList cs).isSome

/-- The guillemet pattern `《([^》\n]{2,60}项目[^》\n]*)》`: at a `《`, the
capture is the whole run of non-`》`/non-`\n` characters, and it matches
iff that run is terminated by `》` and contains `项目` preceded by 2–60
class characters.  (Backtracking inside the run cannot change the capture;
see the matcher section comment.) -/
def guillemetName : List Char → Option String
  | [] => none
  | '《' :: rest =>
    let inner := rest.takeWhile (fun c => c ≠ '》' && c ≠ '\n')
    let after := rest.drop inner.length
    if (match after with | '》' :: _ => true | _ => false) &&
        (List.range 59).any (fun j => isLitAt "项目" (inner.drop (j + 2)))
    then some (String.mk inner)
    else guillemetName rest
  | _ :: rest => guillemetName rest

/-- The lazy name pattern `([^\s，。；：:！!？?]{2,30}?(?:项目|工程|基地|示范|园区))`
at one position: the least length `L ∈ [2,30]` of class characters followed
by a suffix, suffixes tried in alternation order. -/
def lazyNameAt (cs : List Char) : Option String :=
  (List.range 29).findSome? (fun i =>
    let L := i + 2
    let seg := cs.take L
    if seg.length == L && seg.all nameClassChar then
      NAME_SUFFIXES.findSome? (fun suf =>
        if isLitAt suf (cs.drop L) then some (String.mk (seg ++ suf.toList)) else none)
    else none)

/-- The source's `re.search` for the lazy name pattern: leftmost position wins. -/
def searchLazyName : List Char → Option String
  | [] => none
  | c :: rest => (lazyNameAt (c :: rest)).orElse (fun _ => searchLazyName rest)

/-- The qualifier alternation of `re.sub(r"^(关于|拟|一期|二期|三期|首期|全省|全市|我省|我市)", "", name)`. -/
def NAME_QUALIFIERS : List String :=
  ["关于", "拟", "一期", "二期", "三期", "首期", "全省", "全市", "我省", "我市"]

/-- Strip one leading qualifier (anchored `re.sub`, alternatives in order). -/
def stripQualifier (s : String) : String :=
  match NAME_QUALIFIERS.findSome? (fun q => (dropLit q.toList s.toList).map String.mk) with
  | some r => r
  | none => s

/-- The source's `_extract_project_name(title, head)` (the caller passes the full
`main_text` as `head`): guillemets in title, then in head; else the lazy
pattern on title then head, each cleaned and kept only if longer than 4
characters. -/
def extractProjectName (title head : String) : Option String :=
  match guillemetName title.toList with
  | some n => some n
  | none =>
    match guillemetName head.toList with
    | some n => some n
    | none =>
      let tryClean : String → Option String := fun s =>
        (searchLazyName s.toList).bind (fun nm =>
          let nm' := stripQualifier nm
          if 4 < nm'.length then some nm' else none)
      (tryClean title).orElse (fun _ => tryClean head)

/-- The source's `_determine_quality(project_name, stage, capacity_mw, investment_cny)`. -/
def determineQuality (projectName stage : Option String)
    (capacityMw investmentCny : Option ℚ) : String :=
  let nameT := pyTruthyStr projectName
  let stageT := pyTruthyStr stage
  if nameT && stageT && (capacityMw.isSome || investmentCny.isSome) then "A"
  else if nameT && (stageT || capacityMw.isSome || investmentCny.isSome) then "B"
  else "C"

/-- The aggregator keywords of `_determine_source_type` (title-only). -/
def LIST_TITLE_WORDS : List String :=
  ["一览", "汇总", "名单", "统计", "盘点", "周报", "月报", "项目动态"]

/-- The source's `_determine_source_type(title, text)` — the body text is not consulted. -/
def determineSourceType (title : String) : String :=
  if LIST_TITLE_WORDS.any (fun w => pyIn w title) then "list" else "single"

/-! ## Classic engine: summary (`_generate_summary`) -/

/-- The sentence-keeping keywords of `_generate_summary`. -/
def SUMMARY_KEYWORDS : List String :=
  ["投资", "亿元", "万元", "产能", "产量", "吨/年", "Nm3/h", "MW", "GW"]

/-- The splitting class of `re.split(r"[。！？\n]+", text)`. -/
def sentenceDelim (c : Char) : Bool :=
  c ∈ ['。', '！', '？', '\n']

/-- The source's `re.split` on a `[...]+` class: runs of delimiters separate pieces;
empty pieces appear at the boundaries exactly as under CPython. -/
def splitOnDelimsAux : Bool → List Char → List Char → List (List Char)
  | _, acc, [] => [acc.reverse]
  | afterDelim, acc, c :: cs =>
    if sentenceDelim c then
      if afterDelim then splitOnDelimsAux true acc cs
      else acc.reverse :: splitOnDelimsAux true [] cs
    else splitOnDelimsAux false (c :: acc) cs

/-- Sentence split of `_generate_summary`. -/
def splitSentences (text : String) : List String :=
  (splitOnDelimsAux false [] text.toList).map String.mk

/-- The selection loop of `_generate_summary` (`max_chars = 300`); the
`break` stops the whole loop once the budget would be exceeded. -/
def summaryLoop : Nat → List String → List String
  | _, [] => []
  | currentLen, s :: rest =>
    let t := pyStrip s
    if t = "" then summaryLoop currentLen rest
    else if 0 < (SUMMARY_KEYWORDS.filter (fun k => pyIn k t)).length then
      if 300 < currentLen + t.length then []
      else t :: summaryLoop (currentLen + t.length) rest
    else summaryLoop currentLen rest

/-- The source's `_generate_summary(text)`. -/
def generateSummary (text : String) : String :=
  let selected := summaryLoop 0 (splitSentences text)
  if selected.isEmpty then "" else String.intercalate "。" selected ++ "。"

/-! ## The record store (`projects_classic`)

A row of `projects_classic` restricted to the columns the claims touch:
the 20 schema fields written by the merge phase, plus `url` (unique-indexed
by `ux_projects_classic_url`), `user_note`, `is_ai_improved` and
`ai_model`.  Presentation columns (`channel_id`, `channel_label`,
`article_title`, `published_at`, `product_category`, `source_type`) carry
no claim content and are elided from the row type. -/

/-- The 20 schema fields of the merge phase (`fields` list in
`write_result`, in source order). -/
inductive Field where
  | project_name | stage | event_date | location | capacity_mw | investment_cny
  | owner | energy_type | classic_quality | province | city
  | h2_output_tpy | h2_output_nm3_per_h | electrolyzer_count
  | co2_reduction_tpy | project_summary | project_overview | project_progress
  | article_type | numerical_data
deriving DecidableEq, Repr

/-- The JSON key of a schema field (`res.get(k)`). -/
def fieldName : Field → String
  | .project_name => "project_name"
  | .stage => "stage"
  | .event_date => "event_date"
  | .location => "location"
  | .capacity_mw => "capacity_mw"
  | .investment_cny => "investment_cny"
  | .owner => "owner"
  | .energy_type => "energy_type"
  | .classic_quality => "classic_quality"
  | .province => "province"
  | .city => "city"
  | .h2_output_tpy => "h2_output_tpy"
  | .h2_output_nm3_per_h => "h2_output_nm3_per_h"
  | .electrolyzer_count => "electrolyzer_count"
  | .co2_reduction_tpy => "co2_reduction_tpy"
  | .project_summary => "project_summary"
  | .project_overview => "project_overview"
  | .project_progress => "project_progress"
  | .article_type => "article_type"
  | .numerical_data => "numerical_data"

/-- The fields routed through `normalize_number` in `write_result`. -/
def numericField : Field → Bool
  | .capacity_mw | .investment_cny | .h2_output_tpy
  | .h2_output_nm3_per_h | .co2_reduction_tpy => true
  | _ => false

/-- A `projects_classic` row. -/
structure ProjRow where
  id : Nat
  url : String
  fields : Field → Option PyVal
  user_note : Option PyVal
  is_ai_improved : Option Int
  ai_model : Option String

/-- The `projects_classic` table. -/
abbrev Db : Type := List ProjRow

/-- The source's `SELECT ... WHERE id = ?`. -/
def lookupRow (db : Db) (id : Nat) : Option ProjRow :=
  db.find? (fun r => r.id == id)

/-- The source's `UPDATE ... WHERE id = ?`. -/
def updateRow (db : Db) (id : Nat) (f : ProjRow → ProjRow) : Db :=
  db.map (fun r => if r.id == id then f r else r)

/-! ## Refinement scheduler: merge normalisation (`run.normalize_number`) -/

/-- The source's `normalize_number(val, field)` of `AIProjectExtractor.run`: `None`/`""`
give `None`; numbers pass through exactly (`Decimal(str(x))`); strings are
stripped, de-comma'd, parsed as a decimal (falling back to the first
`[0-9]+(?:\.[0-9]+)?` match), then scaled by the first matching unit
substring: `亿 → ×1e8`, `万元|万人民币 → ×1e4`, `万千瓦 → ×10`,
`千瓦 → ÷1000`, `gw → ×1000` (case-insensitive), else unscaled. -/
def normalizeNumber (val : Option PyVal) : Option ℚ :=
  match val with
  | none => none
  | some (.n q) => some q
  | some (.s s0) =>
    if s0 = "" then none
    else
      let s := removeCommas (pyStrip s0)
      let d : Option Frac :=
        match parseDecimal s with
        | some d => some d
        | none => (searchNumTail numTokB [] s.toList).bind (fun cap => parseDecimal (String.mk cap))
      match d with
      | none => none
      | some d =>
        if pyIn "亿" s then some ((d.mulNat 100000000).toRat)
        else if pyIn "万元" s || pyIn "万人民币" s then some ((d.mulNat 10000).toRat)
        else if pyIn "万千瓦" s then some ((d.mulNat 10).toRat)
        else if pyIn "千瓦" s then some ((d.divNat 1000).toRat)
        else if pyIn "gw" (pyLower s) then some ((d.mulNat 1000).toRat)
        else some d.toRat

/-! ## Refinement scheduler: payloads and the merge phase (`write_result`) -/

/-- The `status` field of a worker payload. -/
inductive AIStatus where
  | ok | fail | skip | rate_limit
deriving DecidableEq, Repr

/-- A worker payload as consumed by `write_result` (the `"id"` key is the
first argument of `writeResult`; `"project"`/`"elapsed"` only feed logs). -/
structure Payload where
  status : AIStatus
  result : List (String × PyVal)
  msg : Option String
  model : Option String

/-- The source's `res.get(k)` on the parsed inference dict. -/
def resGet (res : List (String × PyVal)) (k : String) : Option PyVal :=
  (res.find? (fun p => p.1 == k)).map (fun p => p.2)

/-- The source's `any(res.values())`. -/
def anyTruthy (res : List (String × PyVal)) : Bool :=
  res.any (fun p => pyTruthy p.2)

/-- The `merged[k]` computation of the `ok` branch of `write_result`:
numeric fields go through `normalize_number`; other fields keep the
inference value unless it is `None` or `""` (then `None`);
`normalize_value` is the identity on scalars. -/
def mergedValue (res : List (String × PyVal)) (k : Field) : Option PyVal :=
  let newVal := resGet res (fieldName k)
  if numericField k then (normalizeNumber newVal).map PyVal.n
  else
    match newVal with
    | none => none
    | some (.s "") => none
    | some v => some v

/-- The source's `merged` after the stage patch
`if merged.get("stage") in ("Unknown", "unknown", "UNKNOWN")`. -/
def mergedFinal (res : List (String × PyVal)) (k : Field) : Option PyVal :=
  if k = Field.stage then
    match mergedValue res Field.stage with
    | some (.s t) =>
      if t = "Unknown" || t = "unknown" || t = "UNKNOWN" then some (.s "未知")
      else some (.s t)
    | v => v
  else mergedValue res k

/-- The source's `write_result(project_id, payload)`: on a truthy `ok` result, overwrite
the 20 schema fields with `merged`, record the backend and set
`is_ai_improved = 1`; otherwise (failure, skip, rate-limit or an `ok`
payload whose values are all falsy) append the failure note to
`project_progress` (without duplicating it) and set `is_ai_improved = 0`.
A missing row leaves the table unchanged.  `user_note` appears in neither
`UPDATE` statement. -/
def writeResult (db : Db) (projectId : Nat) (payload : Payload) : Db :=
  match lookupRow db projectId with
  | none => db
  | some current =>
    if payload.status = AIStatus.ok && anyTruthy payload.result then
      updateRow db projectId (fun r =>
        { r with
          fields := mergedFinal payload.result
          ai_model := payload.model
          is_ai_improved := some 1 })
    else
      let note := match payload.msg with
        | some m => if m = "" then "[AI失败]" else m
        | none => "[AI失败]"
      let existing := pyStrOrEmpty (current.fields Field.project_progress)
      let newProgress := if !(pyIn note existing) then existing ++ note else existing
      updateRow db projectId (fun r =>
        { r with
          fields := fun k =>
            if k = Field.project_progress then some (.s newProgress) else r.fields k
          ai_model := payload.model
          is_ai_improved := some 0 })

/-! ## Refinement scheduler: the claim lifecycle of `run` -/

/-- The source's `UPDATE projects_classic SET is_ai_improved = 0 WHERE is_ai_improved = 9`
(the crash-recovery reset, first statement of `run`'s `try`), and equally
the teardown `SET is_ai_improved = CASE WHEN is_ai_improved=9 THEN 0 ELSE
is_ai_improved END` of `run`'s `finally` — the two statements are the same
map on rows. -/
def resetClaimed (db : Db) : Db :=
  db.map (fun r => if r.is_ai_improved == some 9 then { r with is_ai_improved := some 0 } else r)

/-- The source's `WHERE is_ai_improved = 0 OR is_ai_improved IS NULL`. -/
def pendingFlag (r : ProjRow) : Bool :=
  r.is_ai_improved == some 0 || r.is_ai_improved == none

/-- Ascending insertion (for `ORDER BY id ASC`). -/
def insertAsc (x : Nat) : List Nat → List Nat
  | [] => [x]
  | y :: ys => if x ≤ y then x :: y :: ys else y :: insertAsc x ys

/-- Ascending sort. -/
def sortAsc (l : List Nat) : List Nat :=
  l.foldr insertAsc []

/-- The claim-phase `SELECT id ... WHERE is_ai_improved = 0 OR is_ai_improved
IS NULL ORDER BY id ASC LIMIT max_projects`. -/
def selectPending (db : Db) (maxProjects : Nat) : List Nat :=
  (sortAsc ((db.filter pendingFlag).map (fun r => r.id))).take maxProjects

/-- The source's `UPDATE ... SET is_ai_improved = 9 WHERE id IN (...)`. -/
def claimIds (db : Db) (ids : List Nat) : Db :=
  db.map (fun r => if ids.contains r.id then { r with is_ai_improved := some 9 } else r)

/-- The database effect of one `AIProjectExtractor.run` invocation.
`completed` is the sequence of `(project_id, payload)` pairs actually
handed to `write_result`, in completion order; normal completion, the
rate-limit circuit breaker and external cancellation all amount to
`completed` being some (possibly empty, possibly reordered) sub-sequence of
the claimed batch, the remaining futures never reaching `write_result` —
their rows stay claimed until the `finally` teardown.  Datastore
statements are modelled as total (I/O failure of the teardown `UPDATE`
itself is out of scope). -/
def runModel (db : Db) (maxProjects : Nat) (completed : List (Nat × Payload)) : Db :=
  let db1 := resetClaimed db
  let ids := selectPending db1 maxProjects
  let db2 := claimIds db1 ids
  let db3 := completed.foldl (fun d pr => writeResult d pr.1 pr.2) db2
  resetClaimed db3

/-! ## Refinement scheduler: per-record processing (`process_single_project_once`) -/

/-- The outcome of `extract_project_info` (the remote call): either the
`{"__error": ..., "__model": ...}` dict or a parsed result dict. -/
inductive InferResult where
  | err (msg : String) (mdl : String)
  | ok (res : List (String × PyVal))

/-- The source's `content = article_row["main_text"] if article_row and
article_row["main_text"] else project["project_summary"]`. -/
def contentFor (mainText summary : Option String) : Option String :=
  match mainText with
  | some t => if t ≠ "" then some t else summary
  | none => summary

/-- The status classification of `process_single_project_once` once an
inference outcome is in hand: `"rate"` in the lowered error makes
`rate_limit`, any other error `fail`; a falsy parsed dict is `fail`,
otherwise `ok`. -/
def classifyInfer : InferResult → AIStatus
  | .err m _ => if pyIn "rate" (pyLower m) then AIStatus.rate_limit else AIStatus.fail
  | .ok res => if res.isEmpty then AIStatus.fail else AIStatus.ok

/-- The source's `process_single_project_once`, abstracted over the remote call: returns
the payload status together with whether the inference endpoint was
invoked at all.  With no content available the record is finalized as
`skip` with note `"[AI跳过: 无正文]"` before `_next_model` or the API is
ever touched. -/
def processSingleProjectOnce (mainText summary : Option String)
    (infer : InferResult) : AIStatus × Bool :=
  if !(pyTruthyStr (contentFor mainText summary)) then (AIStatus.skip, false)
  else (classifyInfer infer, true)

/-- The payload `process_single_project_once` builds on the no-content
path: `{"status": "skip", "msg": "[AI跳过: 无正文]"}`. -/
def skipPayload : Payload :=
  { status := AIStatus.skip, result := [], msg := some "[AI跳过: 无正文]", model := none }

/-! ## Model router (`_next_model` and the bad-model set) -/

/-- The router's owned state: the allow-listed backend list, the
round-robin cursor `_model_idx` and the blacklist `_bad_models`. -/
structure RouterState where
  models : List String
  idx : Nat
  bad : List String

/-- The `while attempts < len(self.models)` loop of `_next_model`:
`fuel` is the number of remaining attempts (initially `len(models)`).
Returns the chosen model and the advanced cursor, or `none` (the
`RuntimeError("No valid models available")` path). -/
def nextModelAux (models bad : List String) : Nat → Nat → Option (String × Nat)
  | _, 0 => none
  | idx, fuel + 1 =>
    let m := models.getD (idx % models.length) ""
    if bad.contains m then nextModelAux models bad (idx + 1) fuel
    else some (m, idx + 1)

/-- The source's `_next_model` (the model-selecting part; the limiter pairing is
`setdefaultLimiter` below). -/
def nextModel (st : RouterState) : Option (String × Nat) :=
  nextModelAux st.models st.bad st.idx st.models.length

/-- The backend at round-robin offset `j` from the cursor. -/
def modelAt (st : RouterState) (j : Nat) : String :=
  st.models.getD ((st.idx + j) % st.models.length) ""

/-- Specification-style round robin: the least cursor offset whose backend
is not blacklisted. -/
def firstHealthyOffset (st : RouterState) : Option Nat :=
  (List.range st.models.length).find? (fun j => !(st.bad.contains (modelAt st j)))

/-- What the spec says `next()` does: return the backend at the first
healthy offset and advance the cursor past it. -/
def routerSpecNext (st : RouterState) : Option (String × Nat) :=
  (firstHealthyOffset st).map (fun j => (modelAt st j, st.idx + j + 1))

/-- The source's `f"{self.base_url}::{model}"`. -/
def limiterKey (baseUrl model : String) : String :=
  baseUrl ++ "::" ++ model

/-- The source's `self.__class__._rate_limiters.setdefault(key, RateLimiter(self.rpm_limit))`:
the registry maps keys to the `rpm` each limiter was built with. -/
def setdefaultLimiter (reg : List (String × Int)) (key : String) (rpm : Int) :
    Int × List (String × Int) :=
  match reg.find? (fun p => p.1 == key) with
  | some kv => (kv.2, reg)
  | none => (rpm, reg ++ [(key, rpm)])

/-- The blacklisting step of `process_single_project_once`:
`if "does not exist" in err.lower() and mdl: self._bad_models.add(mdl)`. -/
def markBadOnError (errMsg : String) (mdl : Option String) (bad : List String) : List String :=
  match mdl with
  | none => bad
  | some m =>
    if pyIn "does not exist" (pyLower errMsg) && m ≠ "" then
      if bad.contains m then bad else m :: bad
    else bad

/-! ## Constructor configuration (`AIProjectExtractor.__init__`) -/

/-- The module constant `ALLOWED_MODELS`. -/
def ALLOWED_MODELS : List String :=
  ["Qwen/Qwen2.5-7B-Instruct", "Qwen/Qwen2-7B-Instruct",
   "Qwen/Qwen2.5-Coder-7B-Instruct", "THUDM/glm-4-9b-chat",
   "THUDM/GLM-4-9B-0414", "deepseek-ai/DeepSeek-V3"]

/-- The fallback backend. -/
def DEFAULT_MODEL : String := "THUDM/GLM-4-9B-0414"

/-- The `models` argument: a string (split on `[,\s]+`) or a list. -/
inductive ModelsArg where
  | str (s : String)
  | list (l : List String)

/-- Accumulator pass for `splitModelTokens`. -/
def splitModelTokensAux : List Char → List Char → List String
  | acc, [] => if acc.isEmpty then [] else [String.mk acc.reverse]
  | acc, c :: cs =>
    if c == ',' || c.isWhitespace then
      if acc.isEmpty then splitModelTokensAux [] cs
      else String.mk acc.reverse :: splitModelTokensAux [] cs
    else splitModelTokensAux (c :: acc) cs

/-- The source's `re.split(r"[,\s]+", models.strip())` followed by dropping empty
tokens (`if m`): the maximal runs of non-separator characters. -/
def splitModelTokens (s : String) : List String :=
  splitModelTokensAux [] (pyStrip s).toList

/-- The source's `candidate_models` of `__init__`: the `models` argument when truthy,
else the single `model` argument when truthy, else nothing. -/
def candidateModels (model : Option String) (models : Option ModelsArg) : List String :=
  match models with
  | some (.str s) => if s ≠ "" then splitModelTokens s else fallbackToModel model
  | some (.list l) => if l ≠ [] then l else fallbackToModel model
  | none => fallbackToModel model
where
  /-- The `elif model:` branch. -/
  fallbackToModel (model : Option String) : List String :=
    match model with
    | some m => if m ≠ "" then [m] else []
    | none => []

/-- The allow-list filter of `__init__`: strip each token, drop empties
and tokens outside `ALLOWED_MODELS`. -/
def cleanedModels (model : Option String) (models : Option ModelsArg) : List String :=
  ((candidateModels model models).map pyStrip).filter
    (fun m => m ≠ "" && ALLOWED_MODELS.contains m)

/-- The source's `self.models`: the cleaned list, or the single default backend when
the cleaned list is empty. -/
def selectModels (model : Option String) (models : Option ModelsArg) : List String :=
  let c := cleanedModels model models
  if c = [] then [DEFAULT_MODEL] else c

/-- The source's `self.rpm_limit = rpm_limit or int(os.environ.get("AI_RPM_LIMIT", "0")
or 0)`, then `if self.rpm_limit <= 0: self.rpm_limit = 20`.  The ambient
environment is the `env` argument, holding the integer value of
`AI_RPM_LIMIT` when the variable is set to a numeral and `none` when it is
unset or empty (both read as `0`). -/
def rpmLimitConfig (rpmArg : Option Int) (env : Option Int) : Int :=
  let v := match rpmArg with
    | some r => if r ≠ 0 then r else env.getD 0
    | none => env.getD 0
  if v ≤ 0 then 20 else v

/-! ## Rate limiter (`RateLimiter.wait`) -/

/-- The lazy pruning loop `while self.times and now - self.times[0] >
self.window: self.times.popleft()` with `window = 60.0`; admission
timestamps are rationals (wall-clock seconds). -/
def pruneWindow (now : ℚ) (ts : List ℚ) : List ℚ :=
  ts.dropWhile (fun t => 60 < now - t)

/-- One iteration of `wait`'s `while True` loop, from state `ts` at time
`now`: either admit (append `now`) or sleep for
`self.window - (now - self.times[0]) + 0.01`. -/
inductive WaitStep where
  | grant (ts : List ℚ)
  | sleep (d : ℚ)

/-- The loop body. The empty-queue sleep branch is unreachable whenever
`1 ≤ rpm` (the pruned queue then has at least `rpm ≥ 1` entries). -/
def waitIter (rpm : Int) (ts : List ℚ) (now : ℚ) : WaitStep :=
  let kept := pruneWindow now ts
  if (kept.length : Int) < rpm then .grant (kept ++ [now])
  else
    match kept with
    | [] => .grant (kept ++ [now])
    | t0 :: _ => .sleep (60 - (now - t0) + 1 / 100)

/-- The `while True` loop with `time.sleep` advancing logical time; the
pruned queue survives an iteration (the deque is mutated in place).
`fuel` bounds the iterations; `ts.length + 1` always suffices. -/
def waitFrom (rpm : Int) : Nat → List ℚ → ℚ → Option (ℚ × List ℚ)
  | 0, _, _ => none
  | fuel + 1, ts, now =>
    match waitIter rpm ts now with
    | .grant ts' => some (now, ts')
    | .sleep d => waitFrom rpm fuel (pruneWindow now ts) (now + d)

/-- The source's `RateLimiter.wait()` for a single caller: returns the admission time
and the queue afterwards.  `if not self.rpm or self.rpm <= 0: return`
gives the immediate, non-recording exit. -/
def limiterWait (rpm : Int) (ts : List ℚ) (now : ℚ) : Option (ℚ × List ℚ) :=
  if rpm ≤ 0 then some (now, ts)
  else waitFrom rpm (ts.length + 1) ts now

/-! ## Classic engine: record construction and `_process_article_row` -/

/-- The `ClassicProject` dataclass, restricted to the columns of the model
(`channel_id`, `channel_label`, `product_category` elided as pure
pass-through data). -/
structure ClassicProject where
  url : String
  article_title : String
  published_at : Option String
  project_name : Option String
  stage : Option String
  event_date : Option String
  location : Option String
  capacity_mw : Option ℚ
  investment_cny : Option ℚ
  owner : Option String
  energy_type : Option String
  classic_quality : Option String
  province : Option String
  city : Option String
  h2_output_tpy : Option ℚ
  h2_output_nm3_per_h : Option ℚ
  electrolyzer_count : Option Int
  co2_reduction_tpy : Option ℚ
  project_summary : Option String
  source_type : String
  project_overview : Option String
  project_progress : Option String
  user_note : Option String
  is_ai_improved : Bool
  article_type : Option String
  numerical_data : Option String

/-- The extractor outputs of `_process_article_row` that no claim depends
on (`_extract_owner`, `_extract_energy_type`, `_extract_location_fields`,
`_extract_h2_output_*`, `_extract_electrolyzer_count`,
`_extract_co2_reduction_tpy`, `_extract_article_type`): they are taken as
universally quantified inputs of the model rather than re-implemented. -/
structure AuxFields where
  owner : Option String
  energyType : Option String
  province : Option String
  city : Option String
  location : Option String
  h2OutputTpy : Option ℚ
  h2OutputNm3PerH : Option ℚ
  electrolyzerCount : Option Int
  co2ReductionTpy : Option ℚ
  articleType : Option String

/-- One item produced by `_extract_list_items` (its segmentation regex is
not needed by any claim; the item list is an input of the model). -/
structure ListItem where
  name : String
  overview : String
  progress : String

/-- The per-item record of the `list` branch (lines building
`ClassicProject(...)` inside the `for item in list_items` loop):
`user_note=None`, `is_ai_improved=False`, owner dropped, stage / capacity /
investment / quality recomputed from the item's own overview text, location
family inherited. -/
def listItemProject (url title : String) (publishedAt : Option String)
    (aux : AuxFields) (item : ListItem) : ClassicProject :=
  let itemStage := extractStage item.overview
  let itemCap := extractCapacityMw item.overview
  let itemInv := extractInvestmentCny item.overview
  { url := url
    article_title := title
    published_at := publishedAt
    project_name := some item.name
    stage := itemStage
    event_date := publishedAt
    location := aux.location
    capacity_mw := itemCap
    investment_cny := itemInv
    owner := none
    energy_type := aux.energyType
    classic_quality := some (determineQuality (some item.name) itemStage itemCap itemInv)
    province := aux.province
    city := aux.city
    h2_output_tpy := none
    h2_output_nm3_per_h := none
    electrolyzer_count := none
    co2_reduction_tpy := none
    project_summary := none
    source_type := "list_item"
    project_overview := some item.overview
    project_progress := some item.progress
    user_note := none
    is_ai_improved := false
    article_type := some "项目"
    numerical_data := none }

/-- The `single`-branch record (`ClassicProject(...)` under
`if source_type == "single"`): `user_note=None`, `is_ai_improved=False`,
`project_overview = project_summary`, `project_progress = stage`. -/
def singleProject (url title : String) (publishedAt : Option String)
    (aux : AuxFields) (projectName : String) (stage : Option String)
    (capacityMw investmentCny : Option ℚ) (quality : String)
    (textForFields : String) : ClassicProject :=
  let summary := generateSummary textForFields
  { url := url
    article_title := title
    published_at := publishedAt
    project_name := some projectName
    stage := stage
    event_date := publishedAt
    location := aux.location
    capacity_mw := capacityMw
    investment_cny := investmentCny
    owner := aux.owner
    energy_type := aux.energyType
    classic_quality := some quality
    province := aux.province
    city := aux.city
    h2_output_tpy := aux.h2OutputTpy
    h2_output_nm3_per_h := aux.h2OutputNm3PerH
    electrolyzer_count := aux.electrolyzerCount
    co2_reduction_tpy := aux.co2ReductionTpy
    project_summary := some summary
    source_type := "single"
    project_overview := some summary
    project_progress := stage
    user_note := none
    is_ai_improved := false
    article_type := aux.articleType
    numerical_data := none }

/-- The error-page fingerprints of the content gate. -/
def ERROR_KEYWORDS : List String :=
  ["403 Forbidden", "404 Not Found", "Nginx", "服务器错误", "Server Error", "500 - "]

/-- The footer/navigation fingerprints of the content gate. -/
def NAV_FINGERPRINTS : List String :=
  ["关于北极星", "广告服务", "会员服务", "版权所有", "京ICP"]

/-- The validity gate of `_process_article_row` (each check `raise`s a
`ValueError` whose message is returned here).  `mainText` is the body text
available after any fetch; an empty text models the
`"No content available to process"` raise. -/
def contentGateReject (mainText : String) : Option String :=
  if mainText = "" then some "No content available to process"
  else
    let textClean := pyStrip mainText
    if textClean = "" then some "No content available to process"
    else if textClean.length < 50 then some "Content too short (possible error page)"
    else if ERROR_KEYWORDS.any (fun k => pyIn k textClean) then
      some "Server Error Content (403/404/500)"
    else if isLitAt "便捷入口" textClean.toList || isLitAt "关于我们" textClean.toList then
      some "Invalid Content (Captured Footer/Nav)"
    else if 3 ≤ (NAV_FINGERPRINTS.filter (fun k => pyIn k textClean)).length then
      some "Invalid Content (Captured Footer/Nav)"
    else none

/-- The observable outcome of `_process_article_row` on one article. -/
inductive ClassicOutcome where
  | rejected (reason : String)
      -- a `ValueError` raised by the gate; recorded against the article
  | notWorth (score : Nat)
      -- `worth_classic=0` stored with the score; no record rows written
  | demoted (score : Nat)
      -- worth, but no extractable name: `worth_classic=0`, no record rows
  | recorded (score : Nat) (quality : String) (rows : List ClassicProject)
      -- record rows inserted, `worth_classic=1`, `classic_quality=quality`

/-- The rows an outcome inserts into `projects_classic`. -/
def ClassicOutcome.records : ClassicOutcome → List ClassicProject
  | .recorded _ _ ps => ps
  | _ => []

/-- The source's `_process_article_row` (database effects are `insertOrReplaceProjects`
below; `listItems` stands for `_extract_list_items(text_for_fields)`). -/
def processArticleRow (url title mainText : String) (publishedAt : Option String)
    (scoreThreshold : Int) (aux : AuxFields) (listItems : List ListItem) :
    ClassicOutcome :=
  match contentGateReject mainText with
  | some reason => .rejected reason
  | none =>
    let head := buildTextHead title mainText
    let score := (computeClassicScore title head).1
    if (score : Int) < scoreThreshold then .notWorth score
    else
      match extractProjectName title mainText with
      | none => .demoted score
      | some projectName =>
        let textForFields := title ++ "\n" ++ takeChars 1200 mainText
        let stage := extractStage textForFields
        let capacityMw := extractCapacityMw textForFields
        let investmentCny := extractInvestmentCny textForFields
        let quality := determineQuality (some projectName) stage capacityMw investmentCny
        let sourceType := determineSourceType title
        if sourceType = "list" && !listItems.isEmpty then
          .recorded score quality
            (listItems.map (listItemProject url title publishedAt aux))
        else
          .recorded score quality
            [singleProject url title publishedAt aux projectName stage
               capacityMw investmentCny quality textForFields]

/-- A `ClassicProject` as the row the `INSERT OR REPLACE` statement writes
(column by column; the new row receives a fresh autoincrement id because
the insert does not supply one). -/
def rowFromProject (newId : Nat) (p : ClassicProject) : ProjRow :=
  { id := newId
    url := p.url
    fields := fun k =>
      match k with
      | .project_name => p.project_name.map PyVal.s
      | .stage => p.stage.map PyVal.s
      | .event_date => p.event_date.map PyVal.s
      | .location => p.location.map PyVal.s
      | .capacity_mw => p.capacity_mw.map PyVal.n
      | .investment_cny => p.investment_cny.map PyVal.n
      | .owner => p.owner.map PyVal.s
      | .energy_type => p.energy_type.map PyVal.s
      | .classic_quality => p.classic_quality.map PyVal.s
      | .province => p.province.map PyVal.s
      | .city => p.city.map PyVal.s
      | .h2_output_tpy => p.h2_output_tpy.map PyVal.n
      | .h2_output_nm3_per_h => p.h2_output_nm3_per_h.map PyVal.n
      | .electrolyzer_count => (p.electrolyzer_count.map (fun c => PyVal.n (c : ℚ)))
      | .co2_reduction_tpy => p.co2_reduction_tpy.map PyVal.n
      | .project_summary => p.project_summary.map PyVal.s
      | .project_overview => p.project_overview.map PyVal.s
      | .project_progress => p.project_progress.map PyVal.s
      | .article_type => p.article_type.map PyVal.s
      | .numerical_data => p.numerical_data.map PyVal.s
    user_note := p.user_note.map PyVal.s
    is_ai_improved := some (if p.is_ai_improved then 1 else 0)
    ai_model := none }

/-- One `INSERT OR REPLACE INTO projects_classic ...` under the unique
index `ux_projects_classic_url` on `url`: a conflicting row (same `url`)
is deleted and the fresh row inserted. -/
def insertOrReplaceProject (db : Db) (newId : Nat) (p : ClassicProject) : Db :=
  db.filter (fun r => r.url ≠ p.url) ++ [rowFromProject newId p]

/-- The insert loop over `projects_to_insert` (fresh ids count up). -/
def insertOrReplaceProjects (db : Db) (startId : Nat) : List ClassicProject → Db
  | [] => db
  | p :: ps => insertOrReplaceProjects (insertOrReplaceProject db startId p) (startId + 1) ps

/-! ## Derived state predicates and concrete instances used in the
counterexamples and witnesses -/

/-- The default `score_threshold` of `ClassicProjectExtractor.run`. -/
def defaultScoreThreshold : Int := 2

/-- No row of the table is in the claimed state (`is_ai_improved = 9`). -/
def noClaimed (db : Db) : Prop :=
  ∀ r ∈ db, r.is_ai_improved ≠ some 9

/-- An `AuxFields` value with every unmodelled extractor returning null. -/
def auxNone : AuxFields :=
  { owner := none, energyType := none, province := none, city := none,
    location := none, h2OutputTpy := none, h2OutputNm3PerH := none,
    electrolyzerCount := none, co2ReductionTpy := none, articleType := none }

/-- A record whose `owner` was already extracted (non-empty). -/
def c1Row : ProjRow :=
  { id := 1, url := "u",
    fields := fun k => if k = Field.owner then some (.s "X") else none,
    user_note := none, is_ai_improved := some 9, ai_model := none }

/-- An inference result that is non-empty overall but supplies no `owner`. -/
def c1Payload : Payload :=
  { status := AIStatus.ok, result := [("project_name", PyVal.s "P")],
    msg := none, model := some "m" }

/-- A freshly claimed record with no stored fields. -/
def c3Row : ProjRow :=
  { id := 1, url := "u", fields := fun _ => none,
    user_note := none, is_ai_improved := some 9, ai_model := none }

/-- A record carrying an operator note. -/
def c4Row : ProjRow :=
  { id := 1, url := "u", fields := fun _ => none,
    user_note := some (.s "keep"), is_ai_improved := some 1, ai_model := none }

/-- A record the classic engine re-extracts for the same `url` (built by
the engine's own `single`-branch constructor, hence `user_note=None`). -/
def c4Project : ClassicProject :=
  singleProject "u" "山东氢能项目签约" none auxNone "山东氢能项目" (some "签约")
    none none "B" "山东氢能项目签约"

/-- The worked example of §8 of the spec: a groundbreaking announcement. -/
def w5Title : String := "赤峰200MW风光制氢一体化示范项目开工，总投资15亿元"

/-- Its body text (longer than the 50-character validity floor). -/
def w5Body : String :=
  "赤峰200MW风光制氢一体化示范项目于今日正式开工，总投资15亿元，项目位于内蒙古自治区赤峰市，建设风电场和绿氢工厂，年产绿氢一万吨。"

/-- A two-backend router state whose first backend is blacklisted. -/
def c7State : RouterState :=
  { models := ["THUDM/GLM-4-9B-0414", "deepseek-ai/DeepSeek-V3"],
    idx := 0, bad := ["THUDM/GLM-4-9B-0414"] }

/-- A record left claimed by a crashed previous run. -/
def c2Row : ProjRow :=
  { id := 7, url := "w", fields := fun _ => none,
    user_note := none, is_ai_improved := some 9, ai_model := none }

/-! ## Helper lemmas -/

/-- The source's `UPDATE ... WHERE id = ?` rewrites exactly the looked-up row when the
rewrite preserves ids. -/
theorem lookupRow_updateRow (db : Db) (i : Nat) (f : ProjRow → ProjRow)
    (hf : ∀ r, (f r).id = r.id) :
    lookupRow (updateRow db i f) i = (lookupRow db i).map f := by
  induction db with
  | nil => rfl
  | cons a as ih =>
    by_cases h : (a.id == i) = true
    · simp [updateRow, lookupRow, List.find?, hf, h]
    · have h' : (a.id == i) = false := by simpa using h
      simp only [updateRow, lookupRow, List.find?, List.map, h', Bool.false_eq_true,
        if_false] at ih ⊢
      exact ih

/-- The looked-up row after an id-preserving `UPDATE ... WHERE id = ?`. -/
theorem lookupRow_updateRow_some (db : Db) (i : Nat) (f : ProjRow → ProjRow)
    (hf : ∀ r, (f r).id = r.id) (row : ProjRow) (h : lookupRow db i = some row) :
    lookupRow (updateRow db i f) i = some (f row) := by
  rw [lookupRow_updateRow db i f hf, h, Option.map_some']

/-- A row surviving in any update keeps its identity set: membership in
`updateRow` images. -/
theorem mem_updateRow (db : Db) (i : Nat) (f : ProjRow → ProjRow) (r : ProjRow)
    (hr : r ∈ updateRow db i f) : (∃ a ∈ db, r = f a) ∨ r ∈ db := by
  rcases List.mem_map.mp hr with ⟨a, ha, rfl⟩
  by_cases h : (a.id == i) = true
  · exact Or.inl ⟨a, ha, by simp [h]⟩
  · right
    simpa [h] using ha

/-! ## C6 — unit canonicalisation -/

/-- C6 counterexample: under the source's binary64 arithmetic,
"5.06亿元" does not yield 506 000 000 currency units.  `float("5.06")` is
the binary64 value `5697053528623677 / 2^50` and
`float("5.06") * 100_000_000.0` rounds to `8489271295999999 / 2^24`
= 505999999.99999994, exactly `2⁻²⁴` short of the claimed value. -/
theorem C6_counterexample :
    extractInvestmentCny "5.06亿元" = some (mkRat 8489271295999999 16777216) ∧
    extractInvestmentCny "5.06亿元" ≠ some 506000000 ∧
    (mkRat 8489271295999999 16777216 : ℚ) = 506000000 - 1 / 16777216 :=
  ⟨by decide, by decide, by rw [Rat.mkRat_eq_div]; norm_num⟩

/-- C6 (amended): the capacity cascade (`_extract_capacity_mw`) maps
`万千瓦 ×10`, `GW ×1000`, `MW ×1`, `kW/千瓦 ÷1000`, `瓦 ÷1e6` to megawatts
and the investment cascade (`_extract_investment_cny`) maps `亿(元) ×1e8`,
`万元 ×1e4`, bare `元 ×1`, both ordered first-match-wins (the `万千瓦`
branch beats a GW mention earlier in the text, the `亿元` branch beats an
earlier `万元`) — but the factors are applied in binary64 floating-point
arithmetic: "5.6GW" → 5600 MW and "20万千瓦" → 200 MW hold exactly,
"800千瓦" stores the binary64 value nearest 0.8 (`4/5 + 2⁻⁵⁴/5`, printed
0.8), and "5.06亿元" yields 505999999.99999994 = 506000000 − 2⁻²⁴
currency units, not exactly 506 000 000. -/
theorem C6_unit_conversion :
    extractCapacityMw "5.6GW" = some 5600 ∧
    extractCapacityMw "20万千瓦" = some 200 ∧
    extractCapacityMw "800千瓦" = some (mkRat 3602879701896397 4503599627370496) ∧
    (mkRat 3602879701896397 4503599627370496 : ℚ) = 4 / 5 + 1 / 22517998136852480 ∧
    extractInvestmentCny "5.06亿元" = some (mkRat 8489271295999999 16777216) ∧
    extractCapacityMw "3MW" = some 3 ∧
    extractCapacityMw "4GW" = some 4000 ∧
    extractCapacityMw "7kW" = some (mkRat 8070450532247929 1152921504606846976) ∧
    (mkRat 8070450532247929 1152921504606846976 : ℚ) = 7 / 1000 + 21 / 144115188075855872000 ∧
    extractCapacityMw "2000000瓦" = some 2 ∧
    extractInvestmentCny "7万元" = some 70000 ∧
    extractInvestmentCny "9元" = some 9 ∧
    extractInvestmentCny "3亿" = some 300000000 ∧
    extractCapacityMw "1GW 2万千瓦" = some 20 ∧
    extractInvestmentCny "3万元 2亿元" = some 200000000 :=
  ⟨by decide, by decide, by decide, by rw [Rat.mkRat_eq_div]; norm_num, by decide,
   by decide, by decide, by decide, by rw [Rat.mkRat_eq_div]; norm_num, by decide,
   by decide, by decide, by decide, by decide, by decide⟩

/-! ## C9 — configuration and ambient state -/

/-- C9 counterexample: with the identical explicit parameters
(`rpm_limit` omitted), the configured requests-per-minute ceiling differs
between an environment where `AI_RPM_LIMIT=5` and one where the variable
is unset — the constructor does read ambient state. -/
theorem C9_counterexample :
    rpmLimitConfig none (some 5) = 5 ∧ rpmLimitConfig none none = 20 ∧
    rpmLimitConfig none (some 5) ≠ rpmLimitConfig none none := by
  refine ⟨by decide, by decide, by decide⟩

/-- C9 (amended): the core's configuration is environment-independent only
when `rpm_limit` is passed as a non-zero explicit value (then the ceiling
is `rpm_limit`, or 20 when non-positive); when `rpm_limit` is `None`/`0`,
the constructor falls back to the `AI_RPM_LIMIT` environment variable
(defaulting to 20 when unset or non-positive). -/
theorem C9_env_independence (r : Int) (e₁ e₂ : Option Int) (h : r ≠ 0) :
    rpmLimitConfig (some r) e₁ = rpmLimitConfig (some r) e₂ ∧
    rpmLimitConfig (some r) e₁ = (if r ≤ 0 then 20 else r) := by
  constructor <;> simp [rpmLimitConfig, h]

/-- C9 witness: a positive explicit `rpm_limit` of 7 yields 7 in any
environment. -/
theorem C9_env_independence_witness :
    rpmLimitConfig (some 7) (some 3) = rpmLimitConfig (some 7) none ∧
    rpmLimitConfig (some 7) (some 3) = 7 := by
  have h := C9_env_independence 7 (some 3) none (by decide)
  exact ⟨h.1, by rw [h.2]; decide⟩

/-! ## C10 — the backend list is never empty -/

/-- C10: for every combination of `model`/`models` constructor arguments,
the configured backend list is non-empty, and when the allow-list filter
leaves nothing (or no token is supplied) the list is exactly the single
default backend `THUDM/GLM-4-9B-0414`. -/
theorem C10_models_nonempty (model : Option String) (models : Option ModelsArg) :
    selectModels model models ≠ [] ∧
    (cleanedModels model models = [] → selectModels model models = [DEFAULT_MODEL]) := by
  constructor
  · by_cases h : cleanedModels model models = [] <;> simp [selectModels, h]
  · intro h
    simp [selectModels, h]

/-- C10 witness: two unknown tokens are rejected and the default backend
is installed. -/
theorem C10_models_nonempty_witness :
    selectModels none (some (.str "foo, bar")) = [DEFAULT_MODEL] ∧
    selectModels none (some (.str "foo, bar")) ≠ [] :=
  ⟨(C10_models_nonempty none (some (.str "foo, bar"))).2 (by decide),
   (C10_models_nonempty none (some (.str "foo, bar"))).1⟩

/-! ## C7 — the model router -/

/-- The `_next_model` loop equals a `find?` over cursor offsets. -/
theorem nextModelAux_eq (models bad : List String) :
    ∀ fuel idx, nextModelAux models bad idx fuel =
      ((List.range fuel).find?
          (fun j => !(bad.contains (models.getD ((idx + j) % models.length) "")))).map
        (fun j => (models.getD ((idx + j) % models.length) "", idx + j + 1)) := by
  intro fuel
  induction fuel with
  | zero => intro idx; rfl
  | succ n ih =>
    intro idx
    rw [List.range_succ_eq_map]
    by_cases h : bad.contains (models.getD (idx % models.length) "") = true
    · rw [List.find?_cons_of_neg _ (by simpa using h), List.find?_map,
        nextModelAux, if_pos (by simpa using h), ih (idx + 1)]
      have harg : ∀ j : Nat, idx + 1 + j = idx + (j + 1) := by omega
      simp only [Option.map_map, Function.comp_def, harg]
    · rw [List.find?_cons_of_pos _ (by simpa using h), nextModelAux,
        if_neg (by simpa using h)]
      simp

/-- C7: the router's `next()` is round-robin over the backend list,
skipping blacklisted backends — it returns the backend at the first
healthy cursor offset and advances the cursor past it; when every backend
is blacklisted (or the list is empty) it returns nothing, which
`_next_model` turns into the fatal `RuntimeError`.  A backend is
blacklisted exactly when an inference error whose lowered text contains
"does not exist" is attributed to it, and blacklisting only ever grows the
set — no operation removes a mark. -/
theorem C7_model_router (st : RouterState) (errMsg : String) (mdl : Option String) :
    nextModel st = routerSpecNext st ∧
    ((∀ m ∈ st.models, m ∈ st.bad) → nextModel st = none) ∧
    (∀ x ∈ st.bad, x ∈ markBadOnError errMsg mdl st.bad) ∧
    (∀ x, x ∈ markBadOnError errMsg mdl st.bad ↔
      (x ∈ st.bad ∨ (mdl = some x ∧ x ≠ "" ∧
        pyIn "does not exist" (pyLower errMsg) = true))) := by
  have hmono : ∀ x ∈ st.bad, x ∈ markBadOnError errMsg mdl st.bad := by
    intro x hx
    cases mdl with
    | none => exact hx
    | some m =>
      simp only [markBadOnError]
      split
      · split
        · exact hx
        · exact List.mem_cons_of_mem _ hx
      · exact hx
  refine ⟨?_, ?_, hmono, ?_⟩
  · rw [nextModel, nextModelAux_eq, routerSpecNext, firstHealthyOffset]
    simp only [modelAt]
  · intro hall
    rw [nextModel, nextModelAux_eq]
    rw [List.find?_eq_none.mpr, Option.map_none']
    intro j hj
    have hlen : 0 < st.models.length := by
      have := List.mem_range.mp hj
      omega
    have hmem : st.models.getD ((st.idx + j) % st.models.length) "" ∈ st.models := by
      rw [List.getD_eq_getElem?_getD, List.getElem?_eq_getElem (Nat.mod_lt _ hlen)]
      exact List.getElem_mem _
    simp only [Bool.not_eq_true']
    simpa [List.getD_eq_getElem?_getD] using hall _ hmem
  · intro x
    constructor
    · intro hx
      cases mdl with
      | none => exact Or.inl hx
      | some m =>
        simp only [markBadOnError] at hx
        split at hx
        · split at hx
          · exact Or.inl hx
          · rcases List.mem_cons.mp hx with rfl | hx'
            · next hcond _ =>
                simp only [Bool.and_eq_true, decide_eq_true_eq] at hcond
                exact Or.inr ⟨rfl, hcond.2, hcond.1⟩
            · exact Or.inl hx'
        · exact Or.inl hx
    · intro hx
      rcases hx with hx | ⟨rfl, hne, hdoes⟩
      · exact hmono x hx
      · simp only [markBadOnError]
        rw [if_pos (by simp [hdoes, hne])]
        by_cases hm : st.bad.contains x = true
        · rw [if_pos hm]
          simpa using hm
        · rw [if_neg hm]
          exact List.mem_cons_self _ _

/-- C7 witness: with the first backend blacklisted, `next()` skips to the
second and advances the cursor; an error "model does not exist" marks its
backend. -/
theorem C7_model_router_witness :
    nextModel c7State = some ("deepseek-ai/DeepSeek-V3", 2) ∧
    "x" ∈ markBadOnError "The model does not exist" (some "x") [] := by
  constructor
  · rw [(C7_model_router c7State "" none).1]
    decide
  · exact ((C7_model_router ⟨[], 0, []⟩ "The model does not exist" (some "x")).2.2.2 "x").mpr
      (Or.inr ⟨rfl, by decide, by decide⟩)

/-! ## C1 — the merge phase overwrites -/

/-- C1 counterexample: a record whose `owner` is the non-empty "X" merged
with an inference result that is non-empty overall (it supplies a
`project_name`) but whose `owner` is absent ends with `owner = NULL` — the
prior non-empty value is erased, against the claim that it be kept. -/
theorem C1_counterexample :
    c1Row.fields Field.owner = some (PyVal.s "X") ∧
    anyTruthy c1Payload.result = true ∧
    (lookupRow (writeResult [c1Row] 1 c1Payload) 1).map (fun r => r.fields Field.owner) =
      some none ∧
    some (none : Option PyVal) ≠ some (some (PyVal.s "X")) := by
  exact ⟨rfl, by decide, rfl, by decide⟩

/-- C1 (amended): on a successful inference result with at least one truthy
value, `write_result` overwrites every schema field: a supplied non-empty
value is stored (normalized through `normalize_number` for the five numeric
fields, subject to the `stage` "Unknown" patch), while an absent or empty
inference field sets the stored field to NULL, erasing any prior value.
Only a result whose values are all falsy leaves the record's fields
untouched (it is handled as a failure: `is_ai_improved = 0`, note appended
to `project_progress`). -/
theorem C1_merge_overwrite (db : Db) (id : Nat) (payload : Payload) (row : ProjRow)
    (hrow : lookupRow db id = some row) (hok : payload.status = AIStatus.ok) :
    (anyTruthy payload.result = true →
      ∃ row', lookupRow (writeResult db id payload) id = some row' ∧
        row'.is_ai_improved = some 1 ∧
        (∀ k, row'.fields k = mergedFinal payload.result k) ∧
        (∀ k, (resGet payload.result (fieldName k) = none ∨
               resGet payload.result (fieldName k) = some (PyVal.s "")) →
           row'.fields k = none) ∧
        (∀ k v, numericField k = false → k ≠ Field.stage →
           resGet payload.result (fieldName k) = some v → v ≠ PyVal.s "" →
           row'.fields k = some v) ∧
        (∀ k v, numericField k = true → resGet payload.result (fieldName k) = some v →
           row'.fields k = (normalizeNumber (some v)).map PyVal.n)) ∧
    (anyTruthy payload.result = false →
      ∃ row', lookupRow (writeResult db id payload) id = some row' ∧
        row'.is_ai_improved = some 0 ∧
        (∀ k, k ≠ Field.project_progress → row'.fields k = row.fields k)) := by
  have hempty : ∀ k, (resGet payload.result (fieldName k) = none ∨
      resGet payload.result (fieldName k) = some (PyVal.s "")) →
      mergedFinal payload.result k = none := by
    intro k hk
    have hmv : mergedValue payload.result k = none := by
      rcases hk with hk | hk <;>
        · simp only [mergedValue, hk]
          split <;> simp [normalizeNumber]
    by_cases hks : k = Field.stage
    · subst hks
      simp [mergedFinal, hmv]
    · simp [mergedFinal, hks, hmv]
  have hsupplied : ∀ k v, numericField k = false → k ≠ Field.stage →
      resGet payload.result (fieldName k) = some v → v ≠ PyVal.s "" →
      mergedFinal payload.result k = some v := by
    intro k v hnum hks hk hv
    have hmv : mergedValue payload.result k = some v := by
      simp only [mergedValue, hk, hnum, Bool.false_eq_true, if_false]
    simp [mergedFinal, hks, hmv]
  have hnumeric : ∀ k v, numericField k = true →
      resGet payload.result (fieldName k) = some v →
      mergedFinal payload.result k = (normalizeNumber (some v)).map PyVal.n := by
    intro k v hnum hk
    have hks : k ≠ Field.stage := by
      intro h
      subst h
      simp [numericField] at hnum
    simp [mergedFinal, hks, mergedValue, hnum, hk]
  constructor
  · intro htruthy
    simp only [writeResult, hrow]
    rw [if_pos (by simp [hok, htruthy])]
    exact ⟨_, lookupRow_updateRow_some db id _ (by intro r; rfl) row hrow, rfl,
      fun k => rfl, hempty, hsupplied, hnumeric⟩
  · intro hfalsy
    simp only [writeResult, hrow]
    rw [if_neg (by simp [hfalsy])]
    exact ⟨_, lookupRow_updateRow_some db id _ (by intro r; rfl) row hrow, rfl,
      fun k hk => by simp [hk]⟩

/-- C1 witness: merging `c1Payload` into `c1Row` erases `owner` and stores
the supplied `project_name`, with the record marked done. -/
theorem C1_merge_overwrite_witness :
    ∃ row', lookupRow (writeResult [c1Row] 1 c1Payload) 1 = some row' ∧
      row'.is_ai_improved = some 1 ∧ row'.fields Field.owner = none ∧
      row'.fields Field.project_name = some (PyVal.s "P") := by
  obtain ⟨row', h1, h2, _h3, h4, h5, _h6⟩ :=
    (C1_merge_overwrite [c1Row] 1 c1Payload c1Row rfl rfl).1 (by decide)
  exact ⟨row', h1, h2, h4 Field.owner (Or.inl rfl),
    h5 Field.project_name (PyVal.s "P") (by decide) (by decide) rfl (by decide)⟩

/-! ## C3 — the no-content path is not terminal -/

/-- Matching a list against itself succeeds. -/
theorem chStartsWith_refl (l : List Char) : chStartsWith l l = true := by
  induction l with
  | nil => rfl
  | cons c cs ih => simp [chStartsWith, ih]

/-- A list contains its own suffix. -/
theorem chContains_append_right (n : List Char) :
    ∀ pre, chContains n (pre ++ n) = true := by
  intro pre
  induction pre with
  | nil =>
    cases n with
    | nil => rfl
    | cons c cs => simp [chContains, chStartsWith_refl]
  | cons p ps ih => simp [chContains, ih]

/-- C3 counterexample: a record without content is finalized as `skip`
without an inference call, but the very next run's claim query selects it
again — `skipped` is not terminal. -/
theorem C3_counterexample :
    processSingleProjectOnce (some "") none (.ok [("x", PyVal.s "y")]) =
      (AIStatus.skip, false) ∧
    selectPending (writeResult [c3Row] 1 skipPayload) 10 = [1] := by
  exact ⟨rfl, by decide⟩

/-- C3 (amended): a record whose source content is unavailable (no article
body and no summary) is finalized without any inference call, with the
note "[AI跳过: 无正文]" recorded in `project_progress` — but the terminal
state it reaches is `is_ai_improved = 0`, i.e. pending: the record
satisfies the claim query's selection predicate and is retried by
subsequent runs. -/
theorem C3_skip_retried (mainText summary : Option String) (infer : InferResult)
    (hcontent : pyTruthyStr (contentFor mainText summary) = false)
    (db : Db) (id : Nat) (row : ProjRow) (hrow : lookupRow db id = some row) :
    processSingleProjectOnce mainText summary infer = (AIStatus.skip, false) ∧
    ∃ row', lookupRow (writeResult db id skipPayload) id = some row' ∧
      row'.is_ai_improved = some 0 ∧ pendingFlag row' = true ∧
      row'.fields Field.project_progress = some (PyVal.s
        (if !(pyIn "[AI跳过: 无正文]" (pyStrOrEmpty (row.fields Field.project_progress))) then
          pyStrOrEmpty (row.fields Field.project_progress) ++ "[AI跳过: 无正文]"
        else pyStrOrEmpty (row.fields Field.project_progress))) ∧
      pyIn "[AI跳过: 无正文]"
        (if !(pyIn "[AI跳过: 无正文]" (pyStrOrEmpty (row.fields Field.project_progress))) then
          pyStrOrEmpty (row.fields Field.project_progress) ++ "[AI跳过: 无正文]"
        else pyStrOrEmpty (row.fields Field.project_progress)) = true := by
  refine ⟨by rw [processSingleProjectOnce, hcontent]; rfl, ?_⟩
  simp only [writeResult, hrow]
  rw [if_neg (by simp [skipPayload])]
  refine ⟨_, lookupRow_updateRow_some db id _ (by intro r; rfl) row hrow, rfl, rfl, rfl, ?_⟩
  by_cases hp : pyIn "[AI跳过: 无正文]"
      (pyStrOrEmpty (row.fields Field.project_progress)) = true
  · simp [hp]
  · have h2 : pyIn "[AI跳过: 无正文]"
        (pyStrOrEmpty (row.fields Field.project_progress)) = false := by
      simpa using hp
    rw [h2]
    simp only [Bool.not_false, if_pos]
    show chContains _ _ = true
    have h := chContains_append_right "[AI跳过: 无正文]".toList
      (pyStrOrEmpty (row.fields Field.project_progress)).toList
    simpa using h

/-- C3 witness: the skip path on a concrete claimed record, finalized back
to pending. -/
theorem C3_skip_retried_witness :
    processSingleProjectOnce (some "") none (.err "boom" "m") = (AIStatus.skip, false) ∧
    ∃ row', lookupRow (writeResult [c3Row] 1 skipPayload) 1 = some row' ∧
      row'.is_ai_improved = some 0 ∧ pendingFlag row' = true := by
  obtain ⟨h1, row', h2, h3, h4, _h5, _h6⟩ :=
    C3_skip_retried (some "") none (.err "boom" "m") (by decide) [c3Row] 1 c3Row rfl
  exact ⟨h1, row', h2, h3, h4⟩

/-! ## C4 — the `user_note` frame -/

/-- Row lookup commutes with an id-preserving rowwise map. -/
theorem lookupRow_map (db : Db) (j : Nat) (g : ProjRow → ProjRow)
    (hg : ∀ r, (g r).id = r.id) :
    lookupRow (db.map g) j = (lookupRow db j).map g := by
  induction db with
  | nil => rfl
  | cons a as ih =>
    by_cases h : (a.id == j) = true
    · simp [lookupRow, List.find?, hg, h]
    · have h' : (a.id == j) = false := by simpa using h
      simp only [lookupRow, List.find?, List.map, hg, h', Bool.false_eq_true,
        if_false] at ih ⊢
      exact ih

/-- C4 counterexample: the classic engine's `INSERT OR REPLACE` on an
article whose `url` already has a record replaces the row and resets
`user_note` to NULL — the operator's note "keep" is lost. -/
theorem C4_counterexample :
    c4Row.user_note = some (PyVal.s "keep") ∧ c4Row.url = c4Project.url ∧
    (insertOrReplaceProject [c4Row] 2 c4Project).map (fun r => (r.id, r.url, r.user_note)) =
      [(2, "u", none)] := by
  exact ⟨rfl, rfl, by decide⟩

/-- C4 (amended): the refinement scheduler never modifies `user_note`
(neither of `write_result`'s UPDATE statements mentions the column, for
any payload and any row); the classic engine constructs every record row
with `user_note = None` and leaves rows of other urls in place — but its
`INSERT OR REPLACE` keyed by the unique url index replaces an existing
same-url row wholesale, so re-extraction of an already-recorded url resets
that record's `user_note` to NULL. -/
theorem C4_user_note_frame (db : Db) (id : Nat) (payload : Payload) (j : Nat) (r : ProjRow)
    (hj : lookupRow db j = some r) :
    (∃ r', lookupRow (writeResult db id payload) j = some r' ∧
       r'.user_note = r.user_note) ∧
    (∀ url title mainText publishedAt threshold aux listItems p,
       p ∈ (processArticleRow url title mainText publishedAt threshold aux
         listItems).records → p.user_note = none) ∧
    (∀ newId p, r.url ≠ p.url → r ∈ db → r ∈ insertOrReplaceProject db newId p) := by
  refine ⟨?_, ?_, ?_⟩
  · cases hl : lookupRow db id with
    | none =>
      simp only [writeResult, hl]
      exact ⟨r, hj, rfl⟩
    | some current =>
      simp only [writeResult, hl]
      by_cases hc : (decide (payload.status = AIStatus.ok) && anyTruthy payload.result) = true
      · rw [if_pos hc]
        simp only [updateRow]
        rw [lookupRow_map db j _ (by intro s; split <;> rfl), hj]
        refine ⟨_, rfl, ?_⟩
        dsimp only
        split <;> rfl
      · rw [if_neg hc]
        simp only [updateRow]
        rw [lookupRow_map db j _ (by intro s; split <;> rfl), hj]
        refine ⟨_, rfl, ?_⟩
        dsimp only
        split <;> rfl
  · intro url title mainText publishedAt threshold aux listItems p hp
    simp only [processArticleRow] at hp
    split at hp
    · simp [ClassicOutcome.records] at hp
    · split at hp
      · simp [ClassicOutcome.records] at hp
      · split at hp
        · simp [ClassicOutcome.records] at hp
        · split at hp
          · simp only [ClassicOutcome.records] at hp
            rcases List.mem_map.mp hp with ⟨item, _, rfl⟩
            rfl
          · simp only [ClassicOutcome.records] at hp
            rw [List.mem_singleton] at hp
            subst hp
            rfl
  · intro newId p hurl hr
    exact List.mem_append_left _ (List.mem_filter.mpr ⟨hr, by simpa using hurl⟩)

/-- C4 witness: a failure payload written over `c4Row` leaves its note
untouched. -/
theorem C4_user_note_frame_witness :
    ∃ r', lookupRow (writeResult [c4Row] 1
        { status := AIStatus.fail, result := [], msg := none, model := none }) 1 = some r' ∧
      r'.user_note = c4Row.user_note :=
  (C4_user_note_frame [c4Row] 1
    { status := AIStatus.fail, result := [], msg := none, model := none } 1 c4Row rfl).1

/-! ## C2 — no claimed record survives a run -/

/-- The crash-recovery / teardown map leaves no row claimed. -/
theorem noClaimed_resetClaimed (db : Db) : noClaimed (resetClaimed db) := by
  intro r hr
  rcases List.mem_map.mp hr with ⟨a, _, rfl⟩
  by_cases h : (a.is_ai_improved == some 9) = true
  · simp [h]
  · have h' : (a.is_ai_improved == some 9) = false := by simpa using h
    simp only [h', Bool.false_eq_true, if_false]
    simpa using h

/-- C2: every run of the scheduler — for any initial table, any claim
budget and any completion sequence (normal completion, rate-limit abort
and cancellation are all truncations of `completed`) — exits with no
record in the claimed state; and the crash-recovery reset, which `runModel`
performs first and unconditionally, turns every record left claimed by a
previous run back into pending before any new claims are made. -/
theorem C2_no_claimed_on_exit (db : Db) (maxProjects : Nat)
    (completed : List (Nat × Payload)) :
    noClaimed (runModel db maxProjects completed) ∧
    (∀ i r, lookupRow db i = some r → r.is_ai_improved = some 9 →
       lookupRow (resetClaimed db) i = some { r with is_ai_improved := some 0 }) := by
  constructor
  · exact noClaimed_resetClaimed _
  · intro i r hr hflag
    rw [resetClaimed, lookupRow_map db i _ (by intro s; split <;> rfl), hr]
    simp [hflag]

/-- C2 witness: the stale claimed record `c2Row` is reset to pending by the
start-of-run recovery. -/
theorem C2_no_claimed_on_exit_witness :
    lookupRow (resetClaimed [c2Row]) 7 = some { c2Row with is_ai_improved := some 0 } :=
  (C2_no_claimed_on_exit [c2Row] 10 []).2 7 c2Row rfl rfl

/-! ## C5 — classic scoring and the demotion path -/

/-- C5: the classic score is the sum of the five boolean signals, hence in
0–5; the default threshold is 2; an article passing the content gate is
stored not-worth exactly when its score is below the threshold (no record
created); and an article that is worth but yields no extractable
`project_name` is demoted (worth flag stored 0) with no record created
either. -/
theorem C5_classic_score (url title mainText : String) (publishedAt : Option String)
    (threshold : Int) (aux : AuxFields) (listItems : List ListItem)
    (score : Nat) (flags : ClassicFlags)
    (hgate : contentGateReject mainText = none)
    (hscore : computeClassicScore title (buildTextHead title mainText) = (score, flags)) :
    score = flags.project_word.toNat + flags.stage_word.toNat + flags.capacity.toNat +
      flags.investment.toNat + flags.location_project.toNat ∧
    score ≤ 5 ∧
    defaultScoreThreshold = 2 ∧
    (processArticleRow url title mainText publishedAt threshold aux listItems =
        ClassicOutcome.notWorth score ↔ (score : Int) < threshold) ∧
    ((score : Int) < threshold ∨ extractProjectName title mainText = none →
      (processArticleRow url title mainText publishedAt threshold aux listItems).records
        = []) ∧
    (¬ ((score : Int) < threshold) → extractProjectName title mainText = none →
      processArticleRow url title mainText publishedAt threshold aux listItems =
        ClassicOutcome.demoted score) := by
  have hsum : score = flags.project_word.toNat + flags.stage_word.toNat +
      flags.capacity.toNat + flags.investment.toNat + flags.location_project.toNat := by
    have h1 := congrArg Prod.fst hscore
    have h2 := congrArg Prod.snd hscore
    simp only [computeClassicScore] at h1 h2
    rw [← h1, ← h2]
  have hle : score ≤ 5 := by
    rw [hsum]
    have b1 := Bool.toNat_le flags.project_word
    have b2 := Bool.toNat_le flags.stage_word
    have b3 := Bool.toNat_le flags.capacity
    have b4 := Bool.toNat_le flags.investment
    have b5 := Bool.toNat_le flags.location_project
    omega
  have hrow : processArticleRow url title mainText publishedAt threshold aux listItems =
      (if (score : Int) < threshold then ClassicOutcome.notWorth score
       else
        match extractProjectName title mainText with
        | none => ClassicOutcome.demoted score
        | some projectName =>
          let textForFields := title ++ "\n" ++ takeChars 1200 mainText
          let stage := extractStage textForFields
          let capacityMw := extractCapacityMw textForFields
          let investmentCny := extractInvestmentCny textForFields
          let quality := determineQuality (some projectName) stage capacityMw investmentCny
          if determineSourceType title = "list" && !listItems.isEmpty then
            ClassicOutcome.recorded score quality
              (listItems.map (listItemProject url title publishedAt aux))
          else
            ClassicOutcome.recorded score quality
              [singleProject url title publishedAt aux projectName stage
                 capacityMw investmentCny quality textForFields]) := by
    simp only [processArticleRow, hgate, hscore]
  refine ⟨hsum, hle, rfl, ?_, ?_, ?_⟩
  · rw [hrow]
    by_cases hlt : (score : Int) < threshold
    · simp [hlt]
    · rw [if_neg hlt]
      constructor
      · intro h
        exfalso
        cases hname : extractProjectName title mainText <;> rw [hname] at h
        · exact absurd h (by simp)
        · dsimp only at h
          split at h <;> simp at h
      · intro h
        exact absurd h hlt
  · intro h
    rcases h with hlt | hname
    · rw [hrow, if_pos hlt]
      rfl
    · rw [hrow]
      by_cases hlt : (score : Int) < threshold
      · rw [if_pos hlt]
        rfl
      · rw [if_neg hlt, hname]
        rfl
  · intro hlt hname
    rw [hrow, if_neg hlt, hname]

/-- C5 witness: the §8 worked example scores 4 of 5 and is processed (not
demoted) at the default threshold 2. -/
theorem C5_classic_score_witness :
    (4 : Nat) ≤ 5 ∧
    ¬ (processArticleRow "u" w5Title w5Body none 2 auxNone [] =
        ClassicOutcome.notWorth 4) := by
  obtain ⟨_, hle, _, hiff, _, _⟩ :=
    C5_classic_score "u" w5Title w5Body none 2 auxNone []
      4 ⟨true, true, true, true, false⟩ (by decide) (by decide)
  exact ⟨hle, fun h => by have := hiff.mp h; omega⟩

/-! ## C8 — the sliding-window rate limiter -/

/-- Lazy pruning is idempotent. -/
theorem pruneWindow_idem (now : ℚ) (ts : List ℚ) :
    pruneWindow now (pruneWindow now ts) = pruneWindow now ts := by
  induction ts with
  | nil => rfl
  | cons t ts ih =>
    by_cases h : (60 : ℚ) < now - t
    · simp only [pruneWindow, List.dropWhile, decide_eq_true h] at ih ⊢
      exact ih
    · simp only [pruneWindow, List.dropWhile,
        decide_eq_false (by exact h), decide_eq_true_eq]

/-- Pruning a two-element queue: both entries inside the window. -/
theorem pruneWindow_pair_keep (now t1 t2 : ℚ) (h1 : ¬ (60 : ℚ) < now - t1) :
    pruneWindow now [t1, t2] = [t1, t2] := by
  simp [pruneWindow, List.dropWhile, h1]

/-- Pruning a two-element queue: both entries expired. -/
theorem pruneWindow_pair_drop (now t1 t2 : ℚ) (h1 : (60 : ℚ) < now - t1)
    (h2 : (60 : ℚ) < now - t2) : pruneWindow now [t1, t2] = [] := by
  simp [pruneWindow, List.dropWhile, h1, h2]

/-- Pruning a two-element queue: only the older entry expired. -/
theorem pruneWindow_pair_tail (now t1 t2 : ℚ) (h1 : (60 : ℚ) < now - t1)
    (h2 : ¬ (60 : ℚ) < now - t2) : pruneWindow now [t1, t2] = [t2] := by
  simp [pruneWindow, List.dropWhile, h1, h2]

/-- Every `admit` produced by the loop body appends the current time to
the pruned queue. -/
theorem waitIter_grant (rpm : Int) (ts : List ℚ) (now : ℚ) (ts1 : List ℚ)
    (h : waitIter rpm ts now = .grant ts1) :
    ts1 = pruneWindow now ts ++ [now] ∧
      (((pruneWindow now ts).length : Int) < rpm ∨ pruneWindow now ts = []) := by
  rw [waitIter] at h
  by_cases hlt : ((pruneWindow now ts).length : Int) < rpm
  · rw [if_pos hlt] at h
    cases h
    exact ⟨rfl, Or.inl hlt⟩
  · rw [if_neg hlt] at h
    cases hk : pruneWindow now ts with
    | nil =>
      rw [hk] at h
      cases h
      exact ⟨rfl, Or.inr rfl⟩
    | cons t0 rest =>
      rw [hk] at h
      cases h

/-- Any admission returned by the bounded loop appends the admission time
to a queue that is already pruned to the trailing window. -/
theorem waitFrom_grant (rpm : Int) :
    ∀ fuel ts now tA ts2, waitFrom rpm fuel ts now = some (tA, ts2) →
      ∃ ts₀, ts2 = ts₀ ++ [tA] ∧ (((ts₀.length : Int) < rpm) ∨ ts₀ = []) ∧
        pruneWindow tA ts₀ = ts₀ := by
  intro fuel
  induction fuel with
  | zero => intro ts now tA ts2 h; cases h
  | succ n ih =>
    intro ts now tA ts2 h
    rw [waitFrom] at h
    cases hw : waitIter rpm ts now with
    | grant ts1 =>
      rw [hw] at h
      obtain ⟨rfl, rfl⟩ : now = tA ∧ ts1 = ts2 := by
        cases h
        exact ⟨rfl, rfl⟩
      obtain ⟨h1, h2⟩ := waitIter_grant rpm ts now ts1 hw
      exact ⟨pruneWindow now ts, h1, h2, pruneWindow_idem now ts⟩
    | sleep d =>
      rw [hw] at h
      exact ih _ _ _ _ h

/-- C8: `wait()` with a non-positive limit returns immediately without
recording; a positive-limit admit returns only when fewer than `rpm`
admissions remain inside the trailing 60-second window, recording exactly
one new admission; and in the three-back-to-back scenario with limit 2 the
third call is admitted only at `t₁ + 60 + 0.01`, i.e. it blocks at least
`60 − (now − t₁)` seconds. -/
theorem C8_rate_limiter (rpm : Int) (ts : List ℚ) (now : ℚ) :
    (rpm ≤ 0 → limiterWait rpm ts now = some (now, ts)) ∧
    (0 < rpm → ∀ tA ts2, limiterWait rpm ts now = some (tA, ts2) →
      ∃ ts₀, ts2 = ts₀ ++ [tA] ∧ (ts₀.length : Int) < rpm ∧ pruneWindow tA ts₀ = ts₀) ∧
    (∀ t1 t2, rpm = 2 → ts = [t1, t2] → t1 ≤ t2 → t2 ≤ now → now - t1 ≤ 60 →
      ∃ ts2, limiterWait rpm ts now = some (t1 + 60 + 1 / 100, ts2) ∧
        now + (60 - (now - t1)) ≤ t1 + 60 + 1 / 100) := by
  refine ⟨?_, ?_, ?_⟩
  · intro h
    rw [limiterWait, if_pos h]
  · intro hpos tA ts2 h
    rw [limiterWait, if_neg (by omega)] at h
    obtain ⟨ts₀, h1, h2, h3⟩ := waitFrom_grant rpm _ ts now tA ts2 h
    refine ⟨ts₀, h1, ?_, h3⟩
    rcases h2 with h2 | h2
    · exact h2
    · rw [h2]
      simpa using hpos
  · intro t1 t2 hrpm hts h12 h2n hwin
    subst hrpm
    subst hts
    have hnow2 : now + (60 - (now - t1) + 1 / 100) = t1 + 60 + 1 / 100 := by ring
    have hstep1 : limiterWait 2 [t1, t2] now =
        waitFrom 2 2 [t1, t2] (t1 + 60 + 1 / 100) := by
      rw [limiterWait, if_neg (by omega)]
      show waitFrom 2 3 [t1, t2] now = _
      rw [waitFrom]
      have hkept : pruneWindow now [t1, t2] = [t1, t2] :=
        pruneWindow_pair_keep now t1 t2 (by linarith)
      have hiter : waitIter 2 [t1, t2] now =
          WaitStep.sleep (60 - (now - t1) + 1 / 100) := by
        rw [waitIter, hkept]
        norm_num
      rw [hiter]
      dsimp only
      rw [hkept, hnow2]
    by_cases hb : (60 : ℚ) < t1 + 60 + 1 / 100 - t2
    · refine ⟨[t1 + 60 + 1 / 100], ?_, by linarith⟩
      rw [hstep1, waitFrom]
      have hiter : waitIter 2 [t1, t2] (t1 + 60 + 1 / 100) =
          WaitStep.grant [t1 + 60 + 1 / 100] := by
        rw [waitIter, pruneWindow_pair_drop (t1 + 60 + 1 / 100) t1 t2 (by linarith) hb]
        norm_num
      rw [hiter]
    · refine ⟨[t2, t1 + 60 + 1 / 100], ?_, by linarith⟩
      rw [hstep1, waitFrom]
      have hiter : waitIter 2 [t1, t2] (t1 + 60 + 1 / 100) =
          WaitStep.grant [t2, t1 + 60 + 1 / 100] := by
        rw [waitIter, pruneWindow_pair_tail (t1 + 60 + 1 / 100) t1 t2 (by linarith) hb]
        norm_num
      rw [hiter]

/-- C8 witness: a disabled limiter admits immediately without recording,
and the concrete back-to-back scenario (admissions at 0 and 1, third call
at 30) is admitted only at 60.01. -/
theorem C8_rate_limiter_witness :
    limiterWait (-1) [5] 7 = some (7, [5]) ∧
    ∃ ts2, limiterWait 2 [0, 1] 30 = some ((0 : ℚ) + 60 + 1 / 100, ts2) ∧
      (30 : ℚ) + (60 - (30 - 0)) ≤ 0 + 60 + 1 / 100 := by
  refine ⟨(C8_rate_limiter (-1) [5] 7).1 (by norm_num), ?_⟩
  exact (C8_rate_limiter 2 [0, 1] 30).2.2 0 1 rfl rfl (by norm_num) (by norm_num)
    (by norm_num)

end Scraping
